import Mathlib

/-!
Verification development for the family-display backend.

Shallow embedding of the Python sources of the repository:
- `backend/app.py`   — Flask composer: background fallback chain, e-ink
  palette quantizer, the four drawing layouts, the HTTP endpoint;
- `backend/main.py`  — FastAPI backend: weather/joke providers with stubs,
  the Pexels prefetch/rollover admin job;
- `backend/services/weather.py`, `backend/services/pexels.py` — service-layer
  provider clients;
- `app.py` — the earlier Flask composer iteration;
- `backend/generator.py`, `generator.py` — weekly art generation jobs.

Pure functions of the source become Lean functions.  Outbound HTTP calls,
object-store reads and randomness become explicit parameters: an HTTP call
is an `Except`/`Option` result (the `error`/`none` case models a raised
exception or a missing resource), `random.choice` becomes an index
parameter.  Machine floats do not occur on the verified paths; Python
integers are `Int`/`Nat` (the values involved are tiny, no overflow).
-/

/-! ## String helpers (Python `str` operations used by the source) -/

/-- `leadMatch p l` is true when the character list `l` starts with `p`
(the workhorse behind Python `str.startswith`/`str.endswith`). -/
def leadMatch : List Char → List Char → Bool
  | [], _ => true
  | _ :: _, [] => false
  | a :: as, b :: bs => a == b && leadMatch as bs

/-- Python `s.startswith(t)`. -/
def strStartsWith (s t : String) : Bool := leadMatch t.data s.data

/-- Python `s.endswith(t)`. -/
def strEndsWith (s t : String) : Bool := leadMatch t.data.reverse s.data.reverse

/-- `hasSub n h` is true when `n` occurs as a contiguous run inside `h`
(Python `t in s`). -/
def hasSub (needle : List Char) : List Char → Bool
  | [] => needle.isEmpty
  | c :: cs => leadMatch needle (c :: cs) || hasSub needle cs

/-- Python `pat in hay` on strings. -/
def containsStr (hay pat : String) : Bool := hasSub pat.data hay.data

theorem leadMatch_iff (p l : List Char) :
    leadMatch p l = true ↔ ∃ t, l = p ++ t := by
  induction p generalizing l with
  | nil => simp [leadMatch]
  | cons a as ih =>
    cases l with
    | nil =>
      simp [leadMatch]
    | cons b bs =>
      simp only [leadMatch, Bool.and_eq_true, beq_iff_eq, ih, List.cons_append,
        List.cons.injEq]
      constructor
      · rintro ⟨rfl, t, rfl⟩; exact ⟨t, rfl, rfl⟩
      · rintro ⟨t, rfl, rfl⟩; exact ⟨rfl, t, rfl⟩

/-! ## C10 — variation parameter handling (`backend/app.py:398-407`) -/

/-- Python `int(s)` restricted to the forms the endpoint can receive:
optional surrounding spaces, an optional sign, then decimal digits;
`none` models a raised `ValueError`.  (Underscore separators and non-ASCII
digits are omitted; the claims below quantify over the parse result, so the
extra accepted forms cannot affect them.) -/
def pyInt (s : String) : Option Int :=
  let cs := s.data.dropWhile (fun c => c == ' ')
  let cs := (cs.reverse.dropWhile (fun c => c == ' ')).reverse
  match cs with
  | [] => none
  | c :: rest =>
    let signed : Bool × List Char :=
      if c == '-' then (true, rest)
      else if c == '+' then (false, rest)
      else (false, c :: rest)
    if signed.2.isEmpty then none
    else if signed.2.all Char.isDigit then
      let n : Nat := signed.2.foldl (fun a d => 10 * a + (d.toNat - 48)) 0
      some (if signed.1 then -(n : Int) else (n : Int))
    else none

/-- The four layout painters of `backend/app.py` (`_draw_clean_clear_layout`,
`_draw_modern_pastel_layout`, `_draw_cozy_cabin_layout`,
`_draw_sci_fi_glass_layout`). -/
inductive LayoutKind where
  | cleanClear
  | modernPastel
  | cozyCabin
  | sciFiGlass
deriving DecidableEq

/-- `self.drawing_functions` (`backend/app.py:52-57`): the dispatch table
from variation index to layout painter. -/
def drawing_functions : List (Nat × LayoutKind) :=
  [(0, .cleanClear), (1, .modernPastel), (2, .cozyCabin), (3, .sciFiGlass)]

/-- Dictionary access `self.drawing_functions[variation_index]`. -/
def drawingLookup (i : Nat) : Option LayoutKind :=
  (drawing_functions.find? (fun kv => kv.1 == i)).map Prod.snd

/-- `backend/app.py:404-407`: `int(variation) % len(self.drawing_functions)`
with a `ValueError` defaulting to 0.  Python `%` with a positive modulus is
`Int.emod`, the `%` of Lean's `Int`. -/
def variationIndexOf (variation : String) : Int :=
  match pyInt variation with
  | some n => n % (drawing_functions.length : Int)
  | none => 0

theorem drawingLookup_isSome_of_lt (k : Nat) (hk : k < 4) :
    (drawingLookup k).isSome = true := by
  interval_cases k <;> decide

/-- C10: for every string value of the `variation` query parameter, the
selected layout index lies in `{0, 1, 2, 3}` — integers are reduced modulo
the four drawing functions, non-integers default to 0 — so the dispatch
`drawing_functions[variation_index]` always finds an entry. -/
theorem variation_index_safe (s : String) :
    0 ≤ variationIndexOf s ∧ variationIndexOf s < 4 ∧
      (drawingLookup (variationIndexOf s).toNat).isSome = true := by
  cases hp : pyInt s with
  | none =>
    simp only [variationIndexOf, hp]
    exact ⟨by decide, by decide, drawingLookup_isSome_of_lt 0 (by decide)⟩
  | some n =>
    have h0 : 0 ≤ n % (4 : Int) := Int.emod_nonneg n (by decide)
    have h4 : n % (4 : Int) < 4 := Int.emod_lt_of_pos n (by decide)
    have hlen : (drawing_functions.length : Int) = 4 := by decide
    simp only [variationIndexOf, hp, hlen]
    exact ⟨h0, h4, drawingLookup_isSome_of_lt _ (by omega)⟩

/-! ## C5 — weather description classification

The `icon_kind` classifier operates on the free-text weather description
that `backend/main.py` ships to the Playwright-rendered layout
(`backend/web/layouts/base.html`); that layout file is not among the
provided sources — only its data producer (`get_weather`, field `desc`) is.
The classifier itself is therefore modelled from the specification.

For context, the provided `app.py` contains a *different*, exact-match
mapping `weather_symbols` from the OpenWeather condition group (the `main`
field, e.g. `"Clouds"`) to an emoji, with default `"❓"`; it is embedded
below as well, but it is not the description classifier the claim
describes. -/

/-- `self.weather_symbols` of `app.py:30-34`: exact-match emoji table keyed
by the OpenWeather condition group. -/
def weather_symbols : List (String × String) :=
  [("Clear", "☀️"), ("Clouds", "☁️"), ("Rain", "🌧️"),
   ("Drizzle", "🌦️"), ("Thunderstorm", "⛈️"), ("Snow", "❄️"),
   ("Mist", "🌫️"), ("Haze", "🌫️"), ("Smoke", "🌫️")]

/-- `app.py:63`: `self.weather_symbols.get(condition, "❓")`. -/
def weatherSymbolFor (condition : String) : String :=
  ((weather_symbols.find? (fun kv => kv.1 == condition)).map Prod.snd).getD "❓"

/-- The closed `icon_kind` enumeration of the specification. -/
inductive IconKind where
  | sunny
  | partly
  | cloudy
  | rain
  | storm
  | snow
  | fog
deriving DecidableEq

/-- Modelled from the spec: the keyword classifier from a free-text weather
description to `icon_kind`.  The code that performs this classification is
`backend/web/layouts/base.html` (the JS side of the Playwright renderer),
which is not among the provided source files.  Following the spec's words:
substring match on terms like "storm", "rain", "snow", "fog", "cloud",
"clear", with precedence storm > rain > snow > fog > cloudy/partly >
sunny > default cloudy; a cloud description qualified as few/partly/
scattered classifies as `partly`. -/
def classifyIconKind (desc : String) : IconKind :=
  if containsStr desc "storm" || containsStr desc "thunder" then .storm
  else if containsStr desc "rain" || containsStr desc "drizzle" then .rain
  else if containsStr desc "snow" then .snow
  else if containsStr desc "fog" || containsStr desc "mist" || containsStr desc "haze" then .fog
  else if containsStr desc "cloud" then
    if containsStr desc "few" || containsStr desc "partly" || containsStr desc "scattered" then
      .partly
    else .cloudy
  else if containsStr desc "clear" || containsStr desc "sun" then .sunny
  else .cloudy

/-- A description that mentions none of the classifier's keywords. -/
def mentionsWeatherKeyword (s : String) : Bool :=
  containsStr s "storm" || containsStr s "thunder" ||
  containsStr s "rain" || containsStr s "drizzle" ||
  containsStr s "snow" ||
  containsStr s "fog" || containsStr s "mist" || containsStr s "haze" ||
  containsStr s "cloud" ||
  containsStr s "clear" || containsStr s "sun"

/-- C5: classification of free-text weather descriptions into `icon_kind`
is total and deterministic (a function: every description yields exactly one
kind); "light rain" classifies as `rain`, "few clouds" as `partly`, and a
description matching no keyword defaults to `cloudy`. -/
theorem classify_icon_kind_spec (s : String) :
    (∃! k, classifyIconKind s = k) ∧
    classifyIconKind "light rain" = .rain ∧
    classifyIconKind "few clouds" = .partly ∧
    (mentionsWeatherKeyword s = false → classifyIconKind s = .cloudy) := by
  refine ⟨⟨classifyIconKind s, rfl, fun y hy => hy.symm⟩, by decide, by decide, ?_⟩
  intro h
  unfold mentionsWeatherKeyword at h
  simp only [Bool.or_eq_false_iff] at h
  obtain ⟨⟨⟨⟨⟨⟨⟨⟨⟨⟨h1, h2⟩, h3⟩, h4⟩, h5⟩, h6⟩, h7⟩, h8⟩, h9⟩, h10⟩, h11⟩ := h
  unfold classifyIconKind
  simp [h1, h2, h3, h4, h5, h6, h7, h8, h9, h10, h11]

/-- Witness for `classify_icon_kind_spec`: a concrete unmapped description
defaults to `cloudy`. -/
theorem classify_icon_kind_spec_witness :
    classifyIconKind "overcast gloom" = .cloudy :=
  (classify_icon_kind_spec "overcast gloom").2.2.2 (by decide)

/-! ## Image model and the e-ink palette quantizer (`backend/app.py:105-128`)

A PIL `RGB` image is a rectangular grid of byte triples; we embed it as a
list of rows of `Nat` triples.  `_quantize_to_eink_palette` builds a 256
entry "P" palette — the six e-ink colors followed by 250 black padding
entries (`palette_data.extend([0] * (768 - len(palette_data)))`) — and
converts the image to it with Floyd–Steinberg error diffusion, then back to
RGB.  The conversion is embedded below at the algorithm level: scanline
order, nearest palette entry (first entry on ties), error diffused 7/16 to
the right neighbour and 3/16, 5/16, 1/16 to the row below; values are
clamped to the byte range before matching.  Rounding of the diffused error
is integer division; neither claim depends on the rounding direction. -/

/-- An RGB byte triple. -/
abbrev RGB := Nat × Nat × Nat

/-- A working-precision (signed) triple for error diffusion. -/
abbrev IRGB := Int × Int × Int

/-- A PIL RGB image: rows of pixels. -/
abbrev PImage := List (List RGB)

/-- `EINK_COLOR_TUPLES` (`backend/app.py:30-37`): black, white, red,
yellow, green (0,128,0), blue. -/
def EINK_COLOR_TUPLES : List RGB :=
  [(0, 0, 0), (255, 255, 255), (255, 0, 0), (255, 255, 0), (0, 128, 0), (0, 0, 255)]

/-- The 256-entry "P" palette: the six colors then 250 black pads
(`backend/app.py:111-118`). -/
def eink_padded_palette : List RGB :=
  EINK_COLOR_TUPLES ++ List.replicate 250 (0, 0, 0)

def toI (c : RGB) : IRGB := ((c.1 : Int), (c.2.1 : Int), (c.2.2 : Int))

def iAdd (a b : IRGB) : IRGB := (a.1 + b.1, a.2.1 + b.2.1, a.2.2 + b.2.2)

def iSub (a b : IRGB) : IRGB := (a.1 - b.1, a.2.1 - b.2.1, a.2.2 - b.2.2)

/-- One Floyd–Steinberg weight: `k/16` of the error, per channel. -/
def diffuse (k : Int) (e : IRGB) : IRGB :=
  (k * e.1 / 16, k * e.2.1 / 16, k * e.2.2 / 16)

/-- Clamp each channel to the byte range. -/
def clamp3 (v : IRGB) : IRGB :=
  (min 255 (max 0 v.1), min 255 (max 0 v.2.1), min 255 (max 0 v.2.2))

/-- Squared Euclidean distance between working values. -/
def dist2 (a b : IRGB) : Int :=
  (a.1 - b.1) * (a.1 - b.1) + (a.2.1 - b.2.1) * (a.2.1 - b.2.1) +
    (a.2.2 - b.2.2) * (a.2.2 - b.2.2)

/-- Scan the palette keeping the first entry of least distance. -/
def nearestAux (p : IRGB) : RGB → List RGB → RGB
  | best, [] => best
  | best, c :: cs =>
    if dist2 p (toI c) < dist2 p (toI best) then nearestAux p c cs
    else nearestAux p best cs

/-- Nearest entry of the padded 256-color palette (first on ties). -/
def nearestColor (p : IRGB) : RGB :=
  nearestAux p (0, 0, 0) eink_padded_palette.tail

/-- Add `e` to the buffer entry at index `i` (no-op out of range). -/
def addAt : List IRGB → Nat → IRGB → List IRGB
  | [], _, _ => []
  | x :: xs, 0, e => iAdd x e :: xs
  | x :: xs, i + 1, e => x :: addAt xs i e

/-- One scanline of Floyd–Steinberg conversion: `ps` the remaining pixels,
`errs` the error pushed down from the previous row (aligned with `ps`),
`x` the current column, `carry` the 7/16 error from the left neighbour,
`next` the error buffer being accumulated for the row below.  Returns the
quantized row and the finished buffer for the next row. -/
def fsRow : List RGB → List IRGB → Nat → IRGB → List IRGB → List RGB × List IRGB
  | [], _, _, _, next => ([], next)
  | p :: ps, errs, x, carry, next =>
    let v := clamp3 (iAdd (iAdd (toI p) (errs.headD (0, 0, 0))) carry)
    let c := nearestColor v
    let err := iSub v (toI c)
    let next1 := if x = 0 then next else addAt next (x - 1) (diffuse 3 err)
    let next2 := addAt next1 x (diffuse 5 err)
    let next3 := addAt next2 (x + 1) (diffuse 1 err)
    let rest := fsRow ps errs.tail (x + 1) (diffuse 7 err) next3
    (c :: rest.1, rest.2)

/-- Floyd–Steinberg over the whole image, threading the diffused error row
by row. -/
def fsImage : PImage → List IRGB → PImage
  | [], _ => []
  | row :: rows, errs =>
    let res := fsRow row errs 0 (0, 0, 0) (List.replicate row.length (0, 0, 0))
    res.1 :: fsImage rows res.2

/-- `FamilyDisplayApp._quantize_to_eink_palette` (`backend/app.py:105-128`):
quantize to the padded e-ink palette with Floyd–Steinberg dithering and
return the result as an RGB image. -/
def quantize_to_eink_palette (img : PImage) : PImage :=
  fsImage img (List.replicate (img.headD []).length (0, 0, 0))

theorem nearestAux_mem (p : IRGB) (best : RGB) (l : List RGB) :
    nearestAux p best l ∈ best :: l := by
  induction l generalizing best with
  | nil => simp [nearestAux]
  | cons c cs ih =>
    simp only [nearestAux]
    by_cases h : dist2 p (toI c) < dist2 p (toI best)
    · simp only [h, if_true]
      exact List.mem_cons_of_mem _ (ih c)
    · simp only [h, if_false]
      rcases List.mem_cons.mp (ih best) with h' | h'
      · rw [h']
        exact List.mem_cons_self _ _
      · exact List.mem_cons_of_mem _ (List.mem_cons_of_mem _ h')

theorem nearestAux_le (p : IRGB) (best : RGB) (l : List RGB) :
    ∀ c ∈ best :: l, dist2 p (toI (nearestAux p best l)) ≤ dist2 p (toI c) := by
  induction l generalizing best with
  | nil =>
    intro c hc
    rcases List.mem_cons.mp hc with rfl | h
    · simp [nearestAux]
    · simp at h
  | cons d ds ih =>
    intro c hc
    simp only [nearestAux]
    by_cases h : dist2 p (toI d) < dist2 p (toI best)
    · simp only [h, if_true]
      rcases List.mem_cons.mp hc with rfl | hc'
      · exact le_of_lt (lt_of_le_of_lt (ih d _ (List.mem_cons_self _ _)) h)
      · exact ih d _ hc'
    · simp only [h, if_false]
      rcases List.mem_cons.mp hc with rfl | hc'
      · exact ih c _ (List.mem_cons_self _ _)
      · rcases List.mem_cons.mp hc' with rfl | hc''
        · exact le_trans (ih best _ (List.mem_cons_self _ _)) (not_lt.mp h)
        · exact ih best _ (List.mem_cons_of_mem _ hc'')

theorem padded_cons :
    eink_padded_palette = (0, 0, 0) :: eink_padded_palette.tail := rfl

theorem nearestColor_mem (p : IRGB) : nearestColor p ∈ eink_padded_palette := by
  rw [padded_cons]
  exact nearestAux_mem p _ _

theorem nearestColor_le (p : IRGB) :
    ∀ c ∈ eink_padded_palette, dist2 p (toI (nearestColor p)) ≤ dist2 p (toI c) := by
  rw [padded_cons]
  exact nearestAux_le p _ _

theorem padded_mem_eink (c : RGB) (h : c ∈ eink_padded_palette) :
    c ∈ EINK_COLOR_TUPLES := by
  rcases List.mem_append.mp h with h' | h'
  · exact h'
  · rw [List.eq_of_mem_replicate h']
    decide

theorem dist2_self (a : IRGB) : dist2 a a = 0 := by
  simp [dist2]

theorem dist2_nonneg (a b : IRGB) : 0 ≤ dist2 a b := by
  unfold dist2
  have h1 := mul_self_nonneg (a.1 - b.1)
  have h2 := mul_self_nonneg (a.2.1 - b.2.1)
  have h3 := mul_self_nonneg (a.2.2 - b.2.2)
  linarith

theorem dist2_eq_zero {a b : IRGB} (h : dist2 a b = 0) : a = b := by
  unfold dist2 at h
  have h1 := mul_self_nonneg (a.1 - b.1)
  have h2 := mul_self_nonneg (a.2.1 - b.2.1)
  have h3 := mul_self_nonneg (a.2.2 - b.2.2)
  have e1 : (a.1 - b.1) * (a.1 - b.1) = 0 := by linarith
  have e2 : (a.2.1 - b.2.1) * (a.2.1 - b.2.1) = 0 := by linarith
  have e3 : (a.2.2 - b.2.2) * (a.2.2 - b.2.2) = 0 := by linarith
  have f1 : a.1 = b.1 := by
    have := mul_self_eq_zero.mp e1; omega
  have f2 : a.2.1 = b.2.1 := by
    have := mul_self_eq_zero.mp e2; omega
  have f3 : a.2.2 = b.2.2 := by
    have := mul_self_eq_zero.mp e3; omega
  exact Prod.ext f1 (Prod.ext f2 f3)

theorem toI_injective {a b : RGB} (h : toI a = toI b) : a = b := by
  unfold toI at h
  have h1 := congrArg Prod.fst h
  have h2 := congrArg (fun v : IRGB => v.2.1) h
  have h3 := congrArg (fun v : IRGB => v.2.2) h
  simp only at h1 h2 h3
  have f1 : a.1 = b.1 := by exact_mod_cast h1
  have f2 : a.2.1 = b.2.1 := by exact_mod_cast h2
  have f3 : a.2.2 = b.2.2 := by exact_mod_cast h3
  exact Prod.ext f1 (Prod.ext f2 f3)

/-- An exact palette color is its own nearest palette entry. -/
theorem nearestColor_self {c : RGB} (h : c ∈ EINK_COLOR_TUPLES) :
    nearestColor (toI c) = c := by
  have hmem : c ∈ eink_padded_palette :=
    List.mem_append.mpr (Or.inl h)
  have hle := nearestColor_le (toI c) c hmem
  rw [dist2_self] at hle
  have hz : dist2 (toI c) (toI (nearestColor (toI c))) = 0 :=
    le_antisymm hle (dist2_nonneg _ _)
  exact toI_injective (dist2_eq_zero hz).symm

/-- Clamping is the identity on exact palette colors. -/
theorem clamp3_palette {c : RGB} (h : c ∈ EINK_COLOR_TUPLES) :
    clamp3 (toI c) = toI c := by
  fin_cases h <;> decide

theorem fsRow_mem_padded (ps : List RGB) :
    ∀ (errs : List IRGB) (x : Nat) (carry : IRGB) (next : List IRGB),
      ∀ c ∈ (fsRow ps errs x carry next).1, c ∈ eink_padded_palette := by
  induction ps with
  | nil => intro errs x carry next c hc; simp [fsRow] at hc
  | cons p ps ih =>
    intro errs x carry next c hc
    simp only [fsRow, List.mem_cons] at hc
    rcases hc with rfl | hc'
    · exact nearestColor_mem _
    · exact ih _ _ _ _ c hc'

/-- C2: every pixel of the quantizer's output is exactly one of the six
fixed palette colors of `EINK_COLOR_TUPLES`; no color outside the palette
appears in the output. -/
theorem quantize_pixels_in_palette (img : PImage) :
    ∀ row ∈ quantize_to_eink_palette img, ∀ p ∈ row, p ∈ EINK_COLOR_TUPLES := by
  have aux : ∀ (rows : PImage) (errs : List IRGB),
      ∀ row ∈ fsImage rows errs, ∀ p ∈ row, p ∈ EINK_COLOR_TUPLES := by
    intro rows
    induction rows with
    | nil => intro errs row hrow; simp [fsImage] at hrow
    | cons r rs ih =>
      intro errs row hrow p hp
      simp only [fsImage, List.mem_cons] at hrow
      rcases hrow with rfl | h
      · exact padded_mem_eink p (fsRow_mem_padded r _ _ _ _ p hp)
      · exact ih _ row h p hp
  exact aux img _

set_option maxRecDepth 8000 in
/-- Witness for `quantize_pixels_in_palette` at the one-pixel image
`[[(10, 20, 30)]]` (its quantization is the single black pixel). -/
theorem quantize_pixels_in_palette_witness :
    (0, 0, 0) ∈ EINK_COLOR_TUPLES :=
  quantize_pixels_in_palette [[(10, 20, 30)]] [(0, 0, 0)] (by decide) (0, 0, 0)
    (by decide)

theorem iAdd_zero (a : IRGB) : iAdd a ((0, 0, 0) : IRGB) = a := by
  simp [iAdd]

theorem diffuse_zero (k : Int) : diffuse k ((0, 0, 0) : IRGB) = ((0, 0, 0) : IRGB) := by
  simp [diffuse]

theorem addAt_zero (l : List IRGB) (i : Nat) :
    addAt l i ((0, 0, 0) : IRGB) = l := by
  induction l generalizing i with
  | nil => rfl
  | cons x xs ih =>
    cases i with
    | zero =>
      show iAdd x ((0, 0, 0) : IRGB) :: xs = x :: xs
      rw [iAdd_zero]
    | succ j =>
      show x :: addAt xs j ((0, 0, 0) : IRGB) = x :: xs
      rw [ih]

theorem iSub_self (a : IRGB) : iSub a a = ((0, 0, 0) : IRGB) := by
  simp [iSub]

theorem headD_of_all_zero {errs : List IRGB}
    (h : ∀ e ∈ errs, e = ((0, 0, 0) : IRGB)) :
    errs.headD ((0, 0, 0) : IRGB) = ((0, 0, 0) : IRGB) := by
  cases errs with
  | nil => rfl
  | cons e es => exact h e (List.mem_cons_self _ _)

theorem tail_all_zero {errs : List IRGB}
    (h : ∀ e ∈ errs, e = ((0, 0, 0) : IRGB)) :
    ∀ e ∈ errs.tail, e = ((0, 0, 0) : IRGB) := by
  cases errs with
  | nil => intro e he; simp at he
  | cons a as => intro e he; exact h e (List.mem_cons_of_mem _ he)

/-- On a row of exact palette pixels with no incoming error, a scanline of
Floyd–Steinberg is the identity: every pixel matches itself exactly, so
every diffused error is zero. -/
theorem fsRow_id (ps : List RGB) :
    ∀ (errs : List IRGB) (x : Nat) (next : List IRGB),
      (∀ p ∈ ps, p ∈ EINK_COLOR_TUPLES) →
      (∀ e ∈ errs, e = ((0, 0, 0) : IRGB)) →
      fsRow ps errs x ((0, 0, 0) : IRGB) next = (ps, next) := by
  induction ps with
  | nil => intro errs x next _ _; rfl
  | cons p ps ih =>
    intro errs x next hpal hz
    have hp : p ∈ EINK_COLOR_TUPLES := hpal p (List.mem_cons_self _ _)
    have hv : clamp3 (iAdd (iAdd (toI p) (errs.headD ((0, 0, 0) : IRGB)))
        ((0, 0, 0) : IRGB)) = toI p := by
      rw [headD_of_all_zero hz, iAdd_zero, iAdd_zero, clamp3_palette hp]
    have hrec := ih errs.tail (x + 1) next
      (fun q hq => hpal q (List.mem_cons_of_mem _ hq)) (tail_all_zero hz)
    simp only [fsRow, hv, nearestColor_self hp, iSub_self, diffuse_zero,
      addAt_zero, ite_self, hrec]

/-- C3: the quantizer is idempotent — on an image whose pixels already all
lie in the six-color palette it is the identity, so quantizing twice with
the same palette equals quantizing once. -/
theorem quantize_idempotent_on_palette (img : PImage)
    (h : ∀ row ∈ img, ∀ p ∈ row, p ∈ EINK_COLOR_TUPLES) :
    quantize_to_eink_palette img = img := by
  have aux : ∀ (rows : PImage) (errs : List IRGB),
      (∀ row ∈ rows, ∀ p ∈ row, p ∈ EINK_COLOR_TUPLES) →
      (∀ e ∈ errs, e = ((0, 0, 0) : IRGB)) →
      fsImage rows errs = rows := by
    intro rows
    induction rows with
    | nil => intro errs _ _; rfl
    | cons r rs ih =>
      intro errs hpal hz
      have h1 := fsRow_id r errs 0 (List.replicate r.length ((0, 0, 0) : IRGB))
        (hpal r (List.mem_cons_self _ _)) hz
      have h2 := ih (List.replicate r.length ((0, 0, 0) : IRGB))
        (fun row hr => hpal row (List.mem_cons_of_mem _ hr))
        (fun e he => List.eq_of_mem_replicate he)
      simp only [fsImage, h1, h2]
  exact aux img _ h (fun e he => List.eq_of_mem_replicate he)

/-- Witness for `quantize_idempotent_on_palette` at a concrete 2×2 image
whose pixels are palette colors. -/
theorem quantize_idempotent_on_palette_witness :
    quantize_to_eink_palette [[(0, 0, 0), (255, 0, 0)], [(255, 255, 255), (0, 0, 255)]] =
      [[(0, 0, 0), (255, 0, 0)], [(255, 255, 255), (0, 0, 255)]] :=
  quantize_idempotent_on_palette _ (by decide)

/-! ## C7 — stale remote scan (`backend/app.py:145-169`)

`_fetch_stale_gcs_data` lists the bucket under the prefix `"weekly-art/"`
(`bucket.list_blobs(prefix=...)`), walks the listing in order and breaks at
the first blob whose name ends with
`"_{day_index}_{variation_index}.png"`; if none matches it raises, which
the caller treats as the tier failing.  The object store is embedded as the
ordered blob listing; a blob carries its name and decoded image. -/

structure Blob where
  name : String
  content : PImage
deriving DecidableEq

/-- `target_suffix = f"_{day_index}_{variation_index}.png"`. -/
def staleTargetSuffix (day_index variation_index : Nat) : String :=
  "_" ++ toString day_index ++ "_" ++ toString variation_index ++ ".png"

/-- A blob the scan accepts: listed under the `weekly-art/` prefix and
carrying the requested day/variation suffix. -/
def staleMatch (day_index variation_index : Nat) (b : Blob) : Bool :=
  strStartsWith b.name "weekly-art/" &&
    strEndsWith b.name (staleTargetSuffix day_index variation_index)

/-- `FamilyDisplayApp._fetch_stale_gcs_data` (`backend/app.py:145-169`):
first match wins; no match raises. -/
def fetch_stale_gcs_data (blobs : List Blob) (day_index variation_index : Nat) :
    Except String PImage :=
  let listed := blobs.filter (fun b => strStartsWith b.name "weekly-art/")
  match listed.find? (fun b =>
      strEndsWith b.name (staleTargetSuffix day_index variation_index)) with
  | some b => .ok b.content
  | none => .error "Stale data recovery failed."

theorem find?_filter_eq {α : Type} (l : List α) (p q : α → Bool) :
    (l.filter p).find? q = l.find? (fun a => p a && q a) := by
  induction l with
  | nil => rfl
  | cons a as ih =>
    by_cases hp : p a = true
    · by_cases hq : q a = true
      · simp [List.filter, List.find?, hp, hq]
      · simp only [Bool.not_eq_true] at hq
        simp [List.filter, List.find?, hp, hq, ih]
    · simp only [Bool.not_eq_true] at hp
      simp [List.filter, List.find?, hp, ih]

theorem find?_first {α : Type} (p : α → Bool) (pre : List α) (b : α)
    (post : List α) (hb : p b = true) (hpre : ∀ m ∈ pre, p m = false) :
    (pre ++ b :: post).find? p = some b := by
  induction pre with
  | nil => simp [List.find?, hb]
  | cons a as ih =>
    have ha : p a = false := hpre a (List.mem_cons_self _ _)
    simp only [List.cons_append, List.find?, ha]
    exact ih (fun m hm => hpre m (List.mem_cons_of_mem _ hm))

/-- C7: the stale tier scans the `weekly-art/` listing and returns the
content of the first blob whose name ends with the
`"_{day_index}_{variation_index}.png"` suffix (the date part of the name is
ignored); when no listed blob carries the suffix, the tier fails with the
raised error. -/
theorem stale_scan_first_suffix_match (blobs : List Blob) (d v : Nat) :
    (∀ pre b post, blobs = pre ++ b :: post → staleMatch d v b = true →
        (∀ m ∈ pre, staleMatch d v m = false) →
        fetch_stale_gcs_data blobs d v = .ok b.content) ∧
    ((∀ b ∈ blobs, staleMatch d v b = false) →
        fetch_stale_gcs_data blobs d v = .error "Stale data recovery failed.") := by
  constructor
  · rintro pre b post rfl hb hpre
    simp only [staleMatch] at hb hpre
    simp only [fetch_stale_gcs_data, find?_filter_eq]
    rw [find?_first
      (fun a => strStartsWith a.name "weekly-art/" &&
        strEndsWith a.name (staleTargetSuffix d v)) pre b post hb hpre]
  · intro hnone
    simp only [fetch_stale_gcs_data, find?_filter_eq]
    have h : blobs.find?
        (fun a => strStartsWith a.name "weekly-art/" &&
          strEndsWith a.name (staleTargetSuffix d v)) = none := by
      apply List.find?_eq_none.mpr
      intro b hb
      have hb' := hnone b hb
      simp only [staleMatch] at hb'
      simp [hb']
    rw [h]

/-- Witness for `stale_scan_first_suffix_match`: with one non-matching and
one matching blob listed, the scan returns the matching blob's content. -/
theorem stale_scan_first_suffix_match_witness :
    fetch_stale_gcs_data
      [⟨"weekly-art/2024-01-01_0_0.png", [[(1, 1, 1)]]⟩,
       ⟨"weekly-art/2024-01-01_2_1.png", [[(2, 2, 2)]]⟩] 2 1 =
      .ok [[(2, 2, 2)]] :=
  (stale_scan_first_suffix_match _ 2 1).1
    [⟨"weekly-art/2024-01-01_0_0.png", [[(1, 1, 1)]]⟩]
    ⟨"weekly-art/2024-01-01_2_1.png", [[(2, 2, 2)]]⟩ [] rfl (by decide)
    (by decide)

/-! ## C1 — the background resolver (`backend/app.py:171-223`)

`fetch_ai_image` attempts, in order: the fresh dated GCS blob, the local
fallback file, the stale GCS scan, and finally a synthesized placeholder.
Each earlier failure is caught (`except`) and triggers exactly the next
attempt; every successful tier's image is quantized to the e-ink palette
before being returned, the placeholder is returned as drawn.

The environment holds the outcome each tier would produce:
`fresh = none` models the blob download raising (missing blob or network
failure), `localFallbackFile = none` models the `os.path.exists` miss
(`IOError` in `_load_local_fallback`), and the stale tier runs the real
scan over the bucket listing (`fetch_stale_gcs_data` above). -/

inductive Tier where
  | fresh
  | localFallback
  | staleRemote
  | placeholder
deriving DecidableEq

structure ResolverEnv where
  fresh : Option PImage
  localFallbackFile : Option PImage
  bucketListing : List Blob

/-- The last-resort placeholder (`backend/app.py:212-216`): a solid red
800×480 canvas.  (The "FATAL ERROR" label drawn over it is typography and
is not pixel-modelled; both its fill and the canvas are palette red/white
so nothing below depends on it.) -/
def placeholderImage : PImage :=
  List.replicate 480 (List.replicate 800 (255, 0, 0))

/-- `FamilyDisplayApp.fetch_ai_image` (`backend/app.py:171-223`). -/
def fetch_ai_image (env : ResolverEnv) (day_index variation_index : Nat) :
    Tier × PImage :=
  match env.fresh with
  | some img => (.fresh, quantize_to_eink_palette img)
  | none =>
    match env.localFallbackFile with
    | some img => (.localFallback, quantize_to_eink_palette img)
    | none =>
      match fetch_stale_gcs_data env.bucketListing day_index variation_index with
      | .ok img => (.staleRemote, quantize_to_eink_palette img)
      | .error _ => (.placeholder, placeholderImage)

/-- C1: the resolver is a total function — for every input and every
combination of tier availability it returns exactly one image without
raising — and tiers are selected in the fixed order fresh-remote, local
fallback, stale-remote scan, placeholder, each later tier attempted only
when every earlier one failed.  In particular, when the fresh lookup
misses and the local fallback file exists, the returned image is the
(quantized) local fallback image with tier `localFallback`. -/
theorem fetch_ai_image_tier_escalation (env : ResolverEnv) (d v : Nat) :
    (∀ img, env.fresh = some img →
        fetch_ai_image env d v = (.fresh, quantize_to_eink_palette img)) ∧
    (∀ img, env.fresh = none → env.localFallbackFile = some img →
        fetch_ai_image env d v = (.localFallback, quantize_to_eink_palette img)) ∧
    (∀ img, env.fresh = none → env.localFallbackFile = none →
        fetch_stale_gcs_data env.bucketListing d v = .ok img →
        fetch_ai_image env d v = (.staleRemote, quantize_to_eink_palette img)) ∧
    (∀ e, env.fresh = none → env.localFallbackFile = none →
        fetch_stale_gcs_data env.bucketListing d v = .error e →
        fetch_ai_image env d v = (.placeholder, placeholderImage)) := by
  refine ⟨?_, ?_, ?_, ?_⟩
  · intro img hf
    simp [fetch_ai_image, hf]
  · intro img hf hl
    simp [fetch_ai_image, hf, hl]
  · intro img hf hl hs
    simp [fetch_ai_image, hf, hl, hs]
  · intro e hf hl hs
    simp [fetch_ai_image, hf, hl, hs]

/-- Witness for `fetch_ai_image_tier_escalation`: fresh misses, the local
fallback file exists — the resolver returns the quantized local fallback. -/
theorem fetch_ai_image_tier_escalation_witness :
    fetch_ai_image ⟨none, some [[(0, 0, 0)]], []⟩ 2 1 =
      (.localFallback, quantize_to_eink_palette [[(0, 0, 0)]]) :=
  (fetch_ai_image_tier_escalation ⟨none, some [[(0, 0, 0)]], []⟩ 2 1).2.1
    [[(0, 0, 0)]] rfl rfl

/-! ## C4 — weather/joke snapshot stubs (`backend/main.py:165-213, 292-308`)

`get_weather` returns the fixed stub when OpenWeather is disabled or the
key is missing, when the HTTP request raises, and when the response status
is not 200; only a 200 response is parsed.  `get_joke` returns a joke from
the fixed `LOCAL_JOKES` list when the jokes API is disabled, raises, or
returns a non-200 status (and also when a 200 body lacks the `joke` key).
Neither function lets the provider failure escape to the caller: both are
embedded as total functions.

An outbound call is an `Except Unit (HttpResp β)`: `.error` models the
raised exception, `.ok` carries the status code and parsed body.
`random.choice(LOCAL_JOKES)` is modelled by an index parameter reduced
modulo the list length.  Temperatures arrive as numbers and are rounded by
the source; they are embedded as integers (the rounding of provider floats
is outside the claims). -/

structure HttpResp (β : Type) where
  status : Nat
  body : β

structure Weather where
  temp : Int
  feels_like : Int
  humidity : Int
  rain : Int
  wind : Int
  icon : String
  desc : String
deriving DecidableEq

/-- The stub returned on every failure path of `get_weather`
(`backend/main.py:167-176` and `204-213`). -/
def weatherStub : Weather :=
  { temp := 33, feels_like := 33, humidity := 45, rain := 0, wind := 5,
    icon := "01d", desc := "Sunny" }

/-- The fields `get_weather` reads out of the OpenWeather 200 response. -/
structure WeatherApiBody where
  temp : Int
  feels_like : Int
  humidity : Int
  windSpeed : Int
  rain1h : Option Int
  icon : String
  desc : String

/-- Python `str.title()` as applied to the provider description. -/
def pyTitleGo : Bool → List Char → List Char
  | _, [] => []
  | prevAlpha, c :: cs =>
    (if c.isAlpha then (if prevAlpha then c.toLower else c.toUpper) else c) ::
      pyTitleGo c.isAlpha cs

def pyTitle (s : String) : String := ⟨pyTitleGo false s.data⟩

/-- `get_weather` (`backend/main.py:165-213`). -/
def get_weather (enableOpenweather : Bool) (apiKey : String)
    (resp : Except Unit (HttpResp WeatherApiBody)) : Weather :=
  if !enableOpenweather || apiKey == "" then weatherStub
  else
    match resp with
    | .error _ => weatherStub
    | .ok r =>
      if r.status = 200 then
        { temp := r.body.temp, feels_like := r.body.feels_like,
          humidity := r.body.humidity, rain := r.body.rain1h.getD 0,
          wind := r.body.windSpeed, icon := r.body.icon,
          desc := pyTitle r.body.desc }
      else weatherStub

/-- `LOCAL_JOKES` (`backend/main.py:114-121`). -/
def LOCAL_JOKES : List String :=
  ["I told my wife she should embrace her mistakes — she gave me a hug.",
   "Why don’t skeletons fight each other? They don’t have the guts.",
   "I’m reading a book about anti-gravity. It’s impossible to put down.",
   "Why did the scarecrow win an award? He was outstanding in his field.",
   "I used to play piano by ear, now I use my hands.",
   "I asked my dog what’s two minus two. He said nothing."]

/-- `random.choice(LOCAL_JOKES)` with the random draw made explicit. -/
def localJoke (i : Nat) : String :=
  LOCAL_JOKES.getD (i % LOCAL_JOKES.length) ""

/-- The body `get_joke` reads out of a 200 icanhazdadjoke response:
`r.json().get("joke", ...)`. -/
structure JokeApiBody where
  joke : Option String

/-- `get_joke` (`backend/main.py:292-308`). -/
def get_joke (enableJokesApi : Bool) (resp : Except Unit (HttpResp JokeApiBody))
    (i : Nat) : String :=
  if enableJokesApi then
    match resp with
    | .ok r =>
      if r.status = 200 then
        match r.body.joke with
        | some j => j
        | none => localJoke i
      else localJoke i
    | .error _ => localJoke i
  else localJoke i

theorem localJoke_mem (i : Nat) : localJoke i ∈ LOCAL_JOKES := by
  have h : i % LOCAL_JOKES.length < LOCAL_JOKES.length :=
    Nat.mod_lt _ (by decide)
  unfold localJoke
  rw [List.getD_eq_getElem LOCAL_JOKES "" h]
  exact List.getElem_mem h

/-- C4: whenever the outbound weather or joke call fails — the feature is
disabled, the API key is absent, the request raises, or the provider
answers with a non-200 status — the snapshot builder returns the fixed
stub: weather with description "Sunny" and the placeholder temperatures,
and a joke drawn from the fixed local fallback list.  Both builders are
total functions, so no provider failure surfaces to the caller as an
error. -/
theorem snapshot_stub_on_failure (apiKey : String) (e : Bool) (i : Nat) :
    (∀ r, get_weather false apiKey r = weatherStub) ∧
    (∀ r, get_weather e "" r = weatherStub) ∧
    (∀ u, get_weather e apiKey (.error u) = weatherStub) ∧
    (∀ r : HttpResp WeatherApiBody, r.status ≠ 200 →
        get_weather e apiKey (.ok r) = weatherStub) ∧
    weatherStub.desc = "Sunny" ∧ weatherStub.temp = 33 ∧
    (∀ u, get_joke true (.error u) i = localJoke i) ∧
    (∀ r : HttpResp JokeApiBody, r.status ≠ 200 →
        get_joke true (.ok r) i = localJoke i) ∧
    (∀ r, get_joke false r i = localJoke i) ∧
    localJoke i ∈ LOCAL_JOKES := by
  refine ⟨?_, ?_, ?_, ?_, rfl, rfl, ?_, ?_, ?_, localJoke_mem i⟩
  · intro r; simp [get_weather]
  · intro r; simp [get_weather]
  · intro u
    by_cases hk : apiKey == ""
    · simp [get_weather, hk]
    · cases e <;> simp [get_weather, hk]
  · intro r hr
    by_cases hk : apiKey == ""
    · simp [get_weather, hk]
    · cases e <;> simp [get_weather, hk, hr]
  · intro u; simp [get_joke]
  · intro r hr; simp [get_joke, hr]
  · intro r; simp [get_joke]

/-- Witness for `snapshot_stub_on_failure`: a 500 weather response yields
the stub, and a raised joke call yields a fallback-list joke. -/
theorem snapshot_stub_on_failure_witness :
    get_weather true "key" (.ok ⟨500, ⟨20, 20, 50, 3, none, "10d", "rain"⟩⟩) =
        weatherStub ∧
      get_joke true (.error ()) 0 = localJoke 0 := by
  refine ⟨?_, ?_⟩
  · exact (snapshot_stub_on_failure "key" true 0).2.2.2.1 _ (by decide)
  · exact (snapshot_stub_on_failure "key" true 0).2.2.2.2.2.2.1 ()

/-! ## C6 — canvas normalization (`app.py:137-140`, `backend/app.py:239-240`)

The composers place the background art with a plain PIL `resize` call:
`ai_art.resize((ai_art_size, ai_art_size))` with
`ai_art_size = int(DISPLAY_WIDTH * 0.3) = 240` in `app.py`, and
`data['art'].resize((DISPLAY_WIDTH // 2, DISPLAY_HEIGHT))` = `(400, 480)`
in `backend/app.py`'s clean-clear layout.  A `resize` maps the *entire*
source rectangle onto the target rectangle — an anisotropic stretch.

Images are embedded as a size plus a pixel-sampling function; `resize` is
modelled with nearest-neighbour sampling.  The claims compared here concern
the output dimensions and the geometric source-to-target mapping, which are
the same for every PIL resampling kernel; the kernel itself (bicubic
weighting) is not modelled.  PIL's same-size fast path returns the image
unchanged, which the nearest-neighbour model reproduces exactly. -/

structure FImage where
  w : Nat
  h : Nat
  pix : Nat → Nat → Nat

/-- PIL `img.resize((tw, th))` as called by the composers: the full source
rectangle resampled to the target rectangle. -/
def resizeFull (img : FImage) (tw th : Nat) : FImage :=
  ⟨tw, th, fun x y => img.pix (x * img.w / tw) (y * img.h / th)⟩

/-- `app.py:138-139`: `ai_art.resize((240, 240))`. -/
def generate_image_art_step (art : FImage) : FImage := resizeFull art 240 240

/-- `backend/app.py:240`: `data['art'].resize((400, 480))`. -/
def clean_clear_art_step (art : FImage) : FImage := resizeFull art 400 480

/-- The specification's words for the Canvas Normalizer (§4.2), for
comparison with the source's step: uniform scale factor
`max(target_w/src_w, target_h/src_h)` ("cover" fit), resize, then
center-crop to the exact target dimensions; sampled with the same
nearest-neighbour model as `resizeFull`. -/
def coverCropNormalize (img : FImage) (tw th : Nat) : FImage :=
  if tw * img.h ≥ th * img.w then
    let rh := img.h * tw / img.w
    let top := (rh - th) / 2
    ⟨tw, th, fun x y => (resizeFull img tw rh).pix x (y + top)⟩
  else
    let rw := img.w * th / img.h
    let left := (rw - tw) / 2
    ⟨tw, th, fun x y => (resizeFull img rw th).pix (x + left) y⟩

/-- A 100×100 test card whose pixel value is its column index. -/
def colStripes : FImage := ⟨100, 100, fun x _ => x⟩

/-- C6 counterexample: the composer's normalization step is *not* the
cover-scale-and-center-crop of the claim.  On a 100×100 source resized to
the 400×480 art slot, the source step keeps column 0 at the left edge
(plain stretch), while cover-crop (scale 4.8, crop 40 columns each side)
would sample source column 8 there. -/
theorem resize_not_cover_crop :
    (clean_clear_art_step colStripes).pix 0 0 ≠
      (coverCropNormalize colStripes 400 480).pix 0 0 := by
  decide

/-- C6 amended: the composer's canvas step produces an image of exactly the
requested target dimensions for every input size and aspect ratio, and it
is idempotent on an already-correctly-sized image — but it is a direct
anisotropic resize of the whole source, not a uniform cover-scale followed
by a center-crop. -/
theorem resize_dims_exact_and_idempotent (img : FImage) (tw th : Nat)
    (hw : 0 < tw) (hh : 0 < th) :
    (resizeFull img tw th).w = tw ∧ (resizeFull img tw th).h = th ∧
    (generate_image_art_step img).w = 240 ∧ (generate_image_art_step img).h = 240 ∧
    (clean_clear_art_step img).w = 400 ∧ (clean_clear_art_step img).h = 480 ∧
    (img.w = tw → img.h = th → resizeFull img tw th = img) ∧
    resizeFull (resizeFull img tw th) tw th = resizeFull img tw th := by
  have hid : ∀ (j : FImage), j.w = tw → j.h = th → resizeFull j tw th = j := by
    intro j hjw hjh
    cases j with
    | mk jw jh jp =>
      simp only at hjw hjh
      subst hjw hjh
      unfold resizeFull
      congr 1
      funext x y
      rw [Nat.mul_div_cancel x hw, Nat.mul_div_cancel y hh]
  refine ⟨rfl, rfl, rfl, rfl, rfl, rfl, hid img, hid (resizeFull img tw th) rfl rfl⟩

/-- Witness for `resize_dims_exact_and_idempotent`: resizing an
already-400×480 image to 400×480 is the identity. -/
theorem resize_dims_exact_and_idempotent_witness :
    resizeFull ⟨400, 480, fun x y => x + y⟩ 400 480 = ⟨400, 480, fun x y => x + y⟩ :=
  ((resize_dims_exact_and_idempotent ⟨400, 480, fun x y => x + y⟩ 400 480
    (by decide) (by decide)).2.2.2.2.2.2.1) rfl rfl

/-! ## C9 — outbound provider timeouts

Every outbound HTTP call to a weather, joke, or image provider in the
sources, with the timeout passed at the call site, transcribed verbatim:

- `backend/main.py:180`  current weather, `httpx.AsyncClient(timeout=8)`;
- `backend/main.py:229`  forecast, `httpx.AsyncClient(timeout=10)`;
- `backend/main.py:296`  joke, `httpx.AsyncClient(timeout=6)`;
- `backend/main.py:620`  Pexels search, `httpx.AsyncClient(timeout=10)`;
- `backend/main.py:662`  Pexels image download, `httpx.AsyncClient(timeout=10)`;
- `backend/services/weather.py:27`  weather, `httpx.Client(timeout=15)`;
- `backend/services/pexels.py:42`   Pexels search and the image downloads
  on the same client, `httpx.Client(timeout=40)`;
- `backend/app.py:79`    weather, `requests.get(..., timeout=5)`;
- `backend/app.py:95`    joke, `requests.get(..., timeout=5)`;
- `app.py:54`            weather, `requests.get(..., timeout=5)`;
- `app.py:80`            joke, `requests.get(..., timeout=5)`;
- `backend/generator.py:45`  Hugging Face image generation,
  `requests.post(...)` with **no** timeout argument (`none`);
- `generator.py:50`  Hugging Face image generation,
  `hf_client.text_to_image(...)` on an `InferenceClient` constructed
  without a timeout argument (`none`). -/

inductive ProviderKind where
  | weather
  | joke
  | image
deriving DecidableEq

structure OutboundCall where
  site : String
  provider : ProviderKind
  timeoutSeconds : Option Nat
deriving DecidableEq

def outbound_provider_calls : List OutboundCall :=
  [⟨"backend/main.py get_weather", .weather, some 8⟩,
   ⟨"backend/main.py get_forecast", .weather, some 10⟩,
   ⟨"backend/main.py get_joke", .joke, some 6⟩,
   ⟨"backend/main.py pexels_fetch_images", .image, some 10⟩,
   ⟨"backend/main.py admin_prefetch image download", .image, some 10⟩,
   ⟨"backend/services/weather.py get_weather", .weather, some 15⟩,
   ⟨"backend/services/pexels.py prefetch_weekly_set search", .image, some 40⟩,
   ⟨"backend/services/pexels.py prefetch_weekly_set download", .image, some 40⟩,
   ⟨"backend/app.py _fetch_weather", .weather, some 5⟩,
   ⟨"backend/app.py _fetch_joke", .joke, some 5⟩,
   ⟨"app.py fetch_weather_data", .weather, some 5⟩,
   ⟨"app.py fetch_dad_joke", .joke, some 5⟩,
   ⟨"backend/generator.py query_hugging_face", .image, none⟩,
   ⟨"generator.py generate_and_save_weekly_art text_to_image", .image, none⟩]

/-- The claim's predicate: an explicit timeout of single-digit seconds. -/
def singleDigitTimeout (c : OutboundCall) : Bool :=
  match c.timeoutSeconds with
  | some t => t < 10
  | none => false

/-- C9 counterexample: not every outbound weather/joke/image call carries
an explicit timeout strictly below 10 seconds — the service-layer weather
call uses 15 s (and the service-layer Pexels client 40 s, the forecast and
Pexels calls in `backend/main.py` 10 s, the Hugging Face call none). -/
theorem timeouts_not_all_single_digit :
    ¬ ∀ c ∈ outbound_provider_calls, singleDigitTimeout c = true := by
  decide

/-- C9 amended: the only outbound provider calls without an explicit
timeout are the two Hugging Face generation requests (`requests.post` in
`backend/generator.py` and `InferenceClient.text_to_image` in
`generator.py`); every explicit timeout is at most 40 seconds; all
joke-provider calls are single-digit (5–6 s); but weather calls range up
to 15 s and image-provider calls up to 40 s, so the claimed strict
10-second bound holds only on the joke path. -/
theorem outbound_timeout_profile (c : OutboundCall)
    (hc : c ∈ outbound_provider_calls) :
    (c.timeoutSeconds = none →
        c.site = "backend/generator.py query_hugging_face" ∨
          c.site = "generator.py generate_and_save_weekly_art text_to_image") ∧
    c.timeoutSeconds.getD 0 ≤ 40 ∧
    (c.provider = .joke → singleDigitTimeout c = true) := by
  fin_cases hc <;> exact ⟨by decide, by decide, by decide⟩

/-- Witness for `outbound_timeout_profile` at the joke call of
`backend/main.py`. -/
theorem outbound_timeout_profile_witness :
    singleDigitTimeout ⟨"backend/main.py get_joke", .joke, some 6⟩ = true :=
  (outbound_timeout_profile ⟨"backend/main.py get_joke", .joke, some 6⟩
    (by decide)).2.2 rfl

/-! ## C8 — Pexels rollover before refill (`backend/main.py:632-674`)

`admin_prefetch` first rolls every blob under `pexels/current/` over to
`pexels/cache/<today>/` (copy, then delete the original), and only then
walks the themes downloading new images; `pexels_fetch_images` returns `[]`
whenever the Pexels call is disabled, errors or answers non-200, so a
failed provider leaves the download loop with nothing to do.

The object store is a list of key/bytes pairs read through `storeGet`
(first entry wins, like a map).  The listing `list_blobs(prefix=...)` is
the keys of the store filtered by the prefix, taken before the loop runs —
exactly as the source materialises `blobs = list(...)` first.  Copying a
listed blob reads its content at step time, which equals its listed
content because the loop never touches the other `pexels/current/` keys
before their own turn. -/

abbrev Bytes := List Nat

abbrev Store := List (String × Bytes)

def storeGet (s : Store) (k : String) : Option Bytes :=
  (s.find? (fun kv => kv.1 == k)).map Prod.snd

def storeWrite (s : Store) (k : String) (d : Bytes) : Store :=
  (k, d) :: s.filter (fun kv => !(kv.1 == k))

def storeDelete (s : Store) (k : String) : Store :=
  s.filter (fun kv => !(kv.1 == k))

/-- Everything after the first `'/'`; the whole list when there is none
(one step of Python `split("/", 2)[-1]`). -/
def splitTail (cs : List Char) : List Char :=
  match cs.dropWhile (fun c => !(c == '/')) with
  | [] => cs
  | _ :: rest => rest

/-- `b.name.split("/", 2)[-1]` (`backend/main.py:652`). -/
def rolloverName (key : String) : String := ⟨splitTail (splitTail key.data)⟩

/-- The destination key `prefix_cache + b.name.split("/", 2)[-1]`. -/
def cacheDest (today key : String) : String :=
  "pexels/cache/" ++ today ++ "/" ++ rolloverName key

/-- One iteration of the rollover loop: `copy_blob` to the cache key, then
`delete` the original (skipping blobs that are gone). -/
def rolloverStep (today : String) (s : Store) (key : String) : Store :=
  match storeGet s key with
  | some d => storeDelete (storeWrite s (cacheDest today key) d) key
  | none => s

/-- `list(gcs_client.list_blobs(GCS_BUCKET, prefix="pexels/current/"))`:
the listing is materialised before the loop. -/
def currentKeys (s : Store) : List String :=
  (s.map Prod.fst).filter (fun k => strStartsWith k "pexels/current/")

/-- The rollover phase of `admin_prefetch` (`backend/main.py:645-655`). -/
def rollover (today : String) (s : Store) : Store :=
  (currentKeys s).foldl (rolloverStep today) s

structure PrefetchEnv where
  today : String
  themes : List String
  providerUrls : String → List String
  download : String → Option Bytes

/-- The per-theme download loop (`backend/main.py:659-669`): failed
downloads are skipped, successes are written under `pexels/current/`. -/
def downloadLoop (env : PrefetchEnv) (theme : String) :
    Store → List (Nat × String) → Store
  | s, [] => s
  | s, (idx, url) :: rest =>
    downloadLoop env theme
      (match env.download url with
       | some d =>
         storeWrite s ("pexels/current/" ++ theme ++ "_" ++ toString idx ++ ".jpg") d
       | none => s) rest

/-- `admin_prefetch` (`backend/main.py:632-674`): rollover first, then the
theme downloads. -/
def admin_prefetch (env : PrefetchEnv) (s : Store) : Store :=
  env.themes.foldl
    (fun st theme => downloadLoop env theme st (env.providerUrls theme).enum)
    (rollover env.today s)

theorem splitTail_current (rest : List Char) :
    splitTail (splitTail (("pexels/current/" : String).data ++ rest)) = rest := rfl

theorem rolloverName_current (key : String) (rest : List Char)
    (h : key.data = ("pexels/current/" : String).data ++ rest) :
    rolloverName key = ⟨rest⟩ := by
  unfold rolloverName
  rw [h, splitTail_current]

theorem string_ext {a b : String} (h : a.data = b.data) : a = b := by
  cases a; cases b; exact congrArg String.mk h

/-- A `pexels/current/` key never equals a `pexels/cache/` key. -/
theorem current_cache_ne {a b : String}
    (ha : strStartsWith a "pexels/current/" = true)
    (hb : strStartsWith b "pexels/cache/" = true) : a ≠ b := by
  obtain ⟨t1, h1⟩ := (leadMatch_iff _ _).mp ha
  obtain ⟨t2, h2⟩ := (leadMatch_iff _ _).mp hb
  intro hab
  subst hab
  rw [h1] at h2
  have e1 : ("pexels/current/" : String).data =
      ['p', 'e', 'x', 'e', 'l', 's', '/', 'c', 'u', 'r', 'r', 'e', 'n', 't', '/'] := rfl
  have e2 : ("pexels/cache/" : String).data =
      ['p', 'e', 'x', 'e', 'l', 's', '/', 'c', 'a', 'c', 'h', 'e', '/'] := rfl
  rw [e1, e2] at h2
  simp at h2

theorem cacheDest_cache (today key : String) :
    strStartsWith (cacheDest today key) "pexels/cache/" = true := by
  apply (leadMatch_iff _ _).mpr
  refine ⟨(today ++ "/" ++ rolloverName key).data, ?_⟩
  show (("pexels/cache/" ++ today ++ "/" ++ rolloverName key) : String).data = _
  simp [String.data_append, List.append_assoc]

theorem cacheDest_inj {today k1 k2 : String}
    (h1 : strStartsWith k1 "pexels/current/" = true)
    (h2 : strStartsWith k2 "pexels/current/" = true)
    (h : cacheDest today k1 = cacheDest today k2) : k1 = k2 := by
  obtain ⟨t1, e1⟩ := (leadMatch_iff _ _).mp h1
  obtain ⟨t2, e2⟩ := (leadMatch_iff _ _).mp h2
  have r1 := rolloverName_current k1 t1 e1
  have r2 := rolloverName_current k2 t2 e2
  unfold cacheDest at h
  rw [r1, r2] at h
  have hd := congrArg String.data h
  simp only [String.data_append] at hd
  simp only [List.append_assoc, List.singleton_append] at hd
  have h3 := List.append_cancel_left hd
  have h4 := List.append_cancel_left h3
  have ht : t1 = t2 := by simpa using h4
  apply string_ext
  rw [e1, e2, ht]

theorem storeGet_write_self (s : Store) (k : String) (d : Bytes) :
    storeGet (storeWrite s k d) k = some d := by
  unfold storeGet storeWrite
  rw [List.find?_cons_of_pos _ (by simp)]
  rfl

theorem find?_eq_of_agree {α : Type} (l : List α) (p q : α → Bool)
    (h : ∀ a, p a = q a) : l.find? p = l.find? q := by
  have : p = q := funext h
  rw [this]

theorem storeGet_delete_ne (s : Store) (k k' : String) (h : k' ≠ k) :
    storeGet (storeDelete s k) k' = storeGet s k' := by
  unfold storeGet storeDelete
  rw [find?_filter_eq]
  congr 1
  apply find?_eq_of_agree
  intro kv
  by_cases hq : kv.1 = k'
  · subst hq
    have : (kv.1 == k) = false := by
      apply beq_eq_false_iff_ne.mpr
      exact h
    simp [this]
  · have : (kv.1 == k') = false := beq_eq_false_iff_ne.mpr hq
    simp [this]

theorem storeGet_delete_self (s : Store) (k : String) :
    storeGet (storeDelete s k) k = none := by
  unfold storeGet storeDelete
  rw [find?_filter_eq]
  have h : (s.find? fun kv => !(kv.1 == k) && (kv.1 == k)) = none := by
    apply List.find?_eq_none.mpr
    intro kv _
    by_cases hq : kv.1 = k <;> simp [hq]
  rw [h]
  rfl

theorem storeGet_write_ne (s : Store) (k k' : String) (d : Bytes) (h : k' ≠ k) :
    storeGet (storeWrite s k d) k' = storeGet s k' := by
  unfold storeWrite
  have hcons : storeGet ((k, d) :: s.filter (fun kv => !(kv.1 == k))) k' =
      storeGet (s.filter (fun kv => !(kv.1 == k))) k' := by
    unfold storeGet
    rw [List.find?_cons_of_neg _ (by simp; exact fun hk => absurd hk.symm h)]
  rw [hcons]
  exact storeGet_delete_ne s k k' h

theorem key_mem_of_get {s : Store} {k : String} {d : Bytes}
    (h : storeGet s k = some d) : k ∈ s.map Prod.fst := by
  unfold storeGet at h
  cases hf : s.find? (fun kv => kv.1 == k) with
  | none => rw [hf] at h; simp at h
  | some kv =>
    have hm : kv ∈ s := List.mem_of_find?_eq_some hf
    have hp := List.find?_some hf
    have hk : kv.1 = k := by simpa using hp
    rw [← hk]
    exact List.mem_map_of_mem Prod.fst hm

theorem rolloverStep_preserve (today : String) (s : Store) (key k' : String)
    (h1 : k' ≠ key) (h2 : k' ≠ cacheDest today key) :
    storeGet (rolloverStep today s key) k' = storeGet s k' := by
  unfold rolloverStep
  cases hg : storeGet s key with
  | none => rfl
  | some d =>
    rw [storeGet_delete_ne _ _ _ h1, storeGet_write_ne _ _ _ _ h2]

theorem rolloverStep_sets_dest (today : String) (s : Store) (key : String)
    (d : Bytes) (hcur : strStartsWith key "pexels/current/" = true)
    (hg : storeGet s key = some d) :
    storeGet (rolloverStep today s key) (cacheDest today key) = some d := by
  unfold rolloverStep
  rw [hg]
  have hne : cacheDest today key ≠ key :=
    fun h => current_cache_ne hcur (cacheDest_cache today key) h.symm
  rw [storeGet_delete_ne _ _ _ hne, storeGet_write_self]

theorem rolloverStep_deletes_key (today : String) (s : Store) (key : String) :
    storeGet (rolloverStep today s key) key =
      match storeGet s key with
      | some _ => none
      | none => none := by
  unfold rolloverStep
  cases hg : storeGet s key with
  | none => rw [hg]
  | some d => exact storeGet_delete_self _ _

theorem rolloverStep_keeps_none (today : String) (s : Store) (key k' : String)
    (hcur : strStartsWith k' "pexels/current/" = true)
    (h0 : storeGet s k' = none) :
    storeGet (rolloverStep today s key) k' = none := by
  unfold rolloverStep
  cases hg : storeGet s key with
  | none => exact h0
  | some d =>
    by_cases hk : k' = key
    · subst hk
      exact storeGet_delete_self _ _
    · rw [storeGet_delete_ne _ _ _ hk,
        storeGet_write_ne _ _ _ _
          (current_cache_ne hcur (cacheDest_cache today key)), h0]

/-- Once a blob's content sits at its cache key, the remaining rollover
iterations cannot disturb it: they write other cache keys (distinct by
`cacheDest_inj` unless the source blob is already gone) and delete only
`pexels/current/` keys. -/
theorem fold_preserves_dest (today : String) (ks : List String) :
    ∀ (s : Store) (destKey : String) (d : Bytes),
      (∀ k ∈ ks, strStartsWith k "pexels/current/" = true) →
      strStartsWith destKey "pexels/cache/" = true →
      storeGet s destKey = some d →
      (∀ k ∈ ks, cacheDest today k = destKey → storeGet s k = none) →
      storeGet (ks.foldl (rolloverStep today) s) destKey = some d := by
  induction ks with
  | nil => intro s destKey d _ _ hget _; exact hget
  | cons k ks ih =>
    intro s destKey d hcur hcache hget hnone
    have hkcur : strStartsWith k "pexels/current/" = true :=
      hcur k (List.mem_cons_self _ _)
    rw [List.foldl_cons]
    by_cases hdk : cacheDest today k = destKey
    · have h0 : storeGet s k = none := hnone k (List.mem_cons_self _ _) hdk
      have hstep : rolloverStep today s k = s := by
        unfold rolloverStep; rw [h0]
      rw [hstep]
      exact ih s destKey d (fun k2 hk2 => hcur k2 (List.mem_cons_of_mem _ hk2))
        hcache hget
        (fun k2 hk2 hd2 => hnone k2 (List.mem_cons_of_mem _ hk2) hd2)
    · have hne1 : destKey ≠ k := fun h =>
        current_cache_ne hkcur hcache h.symm
      have hne2 : destKey ≠ cacheDest today k := fun h => hdk h.symm
      have hget' : storeGet (rolloverStep today s k) destKey = some d := by
        rw [rolloverStep_preserve today s k destKey hne1 hne2]; exact hget
      exact ih (rolloverStep today s k) destKey d
        (fun k2 hk2 => hcur k2 (List.mem_cons_of_mem _ hk2)) hcache hget'
        (fun k2 hk2 hd2 =>
          rolloverStep_keeps_none today s k k2
            (hcur k2 (List.mem_cons_of_mem _ hk2))
            (hnone k2 (List.mem_cons_of_mem _ hk2) hd2))

/-- Running the rollover loop over a listing that contains `key` moves the
content at `key` to its cache destination. -/
theorem rollover_fold_get (today : String) (ks : List String) :
    ∀ (s : Store) (key : String) (d : Bytes),
      (∀ k ∈ ks, strStartsWith k "pexels/current/" = true) →
      key ∈ ks →
      storeGet s key = some d →
      storeGet (ks.foldl (rolloverStep today) s) (cacheDest today key) = some d := by
  induction ks with
  | nil => intro s key d _ hmem; simp at hmem
  | cons k ks ih =>
    intro s key d hcur hmem hget
    rw [List.foldl_cons]
    have hkcur : strStartsWith k "pexels/current/" = true :=
      hcur k (List.mem_cons_self _ _)
    by_cases hk : key = k
    · subst hk
      have hdest := rolloverStep_sets_dest today s key d hkcur hget
      apply fold_preserves_dest today ks (rolloverStep today s key)
        (cacheDest today key) d
        (fun k2 hk2 => hcur k2 (List.mem_cons_of_mem _ hk2))
        (cacheDest_cache today key) hdest
      intro k2 hk2 hd2
      have hk2cur := hcur k2 (List.mem_cons_of_mem _ hk2)
      have hkey : k2 = key := cacheDest_inj hk2cur hkcur hd2
      subst hkey
      rw [rolloverStep_deletes_key today s k2, hget]
    · have hmem' : key ∈ ks := by
        rcases List.mem_cons.mp hmem with h | h
        · exact absurd h hk
        · exact h
      have hkeycur : strStartsWith key "pexels/current/" = true := hcur key hmem
      have hget' : storeGet (rolloverStep today s k) key = some d := by
        rw [rolloverStep_preserve today s k key hk
          (current_cache_ne hkeycur (cacheDest_cache today k))]
        exact hget
      exact ih (rolloverStep today s k) key d
        (fun k2 hk2 => hcur k2 (List.mem_cons_of_mem _ hk2)) hmem' hget'

/-- C8: in `admin_prefetch` the rollover of every `pexels/current/` blob
into `pexels/cache/<today>/` completes before any provider download is
attempted; when the Pexels provider fails for every theme
(`pexels_fetch_images` returns `[]`), the refill writes nothing, and every
previously-current blob's content still exists under its `pexels/cache/`
key after the failed refill. -/
theorem prefetch_rollover_precedes_refill (env : PrefetchEnv) (s : Store)
    (hfail : ∀ theme ∈ env.themes, env.providerUrls theme = [])
    (key : String) (d : Bytes)
    (hcur : strStartsWith key "pexels/current/" = true)
    (hget : storeGet s key = some d) :
    admin_prefetch env s = rollover env.today s ∧
    storeGet (admin_prefetch env s) (cacheDest env.today key) = some d := by
  have hdl : admin_prefetch env s = rollover env.today s := by
    unfold admin_prefetch
    have haux : ∀ (ts : List String) (st : Store),
        (∀ t ∈ ts, env.providerUrls t = []) →
        ts.foldl
          (fun st theme => downloadLoop env theme st (env.providerUrls theme).enum)
          st = st := by
      intro ts
      induction ts with
      | nil => intro st _; rfl
      | cons t ts ihts =>
        intro st hts
        rw [List.foldl_cons, hts t (List.mem_cons_self _ _)]
        exact ihts _ (fun t2 ht2 => hts t2 (List.mem_cons_of_mem _ ht2))
    exact haux env.themes _ hfail
  refine ⟨hdl, ?_⟩
  rw [hdl]
  have hmem : key ∈ currentKeys s := by
    unfold currentKeys
    exact List.mem_filter.mpr ⟨key_mem_of_get hget, hcur⟩
  exact rollover_fold_get env.today (currentKeys s) s key d
    (fun k hk => (List.mem_filter.mp hk).2) hmem hget

/-- Witness for `prefetch_rollover_precedes_refill`: one current blob, a
failing provider — the content survives at its cache key. -/
theorem prefetch_rollover_precedes_refill_witness :
    storeGet
      (admin_prefetch
        ⟨"2024-06-01", ["abstract"], fun _ => [], fun _ => none⟩
        [("pexels/current/abstract_0.jpg", [7, 7])])
      (cacheDest "2024-06-01" "pexels/current/abstract_0.jpg") = some [7, 7] :=
  (prefetch_rollover_precedes_refill
    ⟨"2024-06-01", ["abstract"], fun _ => [], fun _ => none⟩
    [("pexels/current/abstract_0.jpg", [7, 7])]
    (by intro t ht; rfl)
    "pexels/current/abstract_0.jpg" [7, 7] (by decide) (by decide)).2
